import Mathlib

/-!
Shallow embedding of `src/python-boilerplate/python-boilerplate.py`.

Python integers are modelled as `ℤ`; Python's true division `/` (which
produces an exact value on the inputs appearing here) is modelled over `ℚ`;
fallible operations (division, `int()` parsing) return `Except PyError`;
the console output of the error-handling routine is modelled as a list of
tagged events; the filesystem touched by the file-operations routine is
modelled as a map from file names to contents.
-/

/-- The two exception kinds raised by any operation this script performs:
`ZeroDivisionError` from `/` and `ValueError` from `int()`. -/
inductive PyError where
  | zeroDivision
  | valueError
deriving DecidableEq, Repr

/-- Python's true division on integers: raises `ZeroDivisionError` when the
divisor is zero, otherwise returns the exact quotient (as a rational). -/
def pyDiv (a b : ℤ) : Except PyError ℚ :=
  if b = 0 then .error .zeroDivision else .ok ((a : ℚ) / (b : ℚ))

/-- Accumulate a run of decimal digits; `none` as soon as a non-digit
appears. -/
def readDigitsAux : List Char → Nat → Option Nat
  | [], acc => some acc
  | c :: cs, acc =>
    if c.isDigit then readDigitsAux cs (10 * acc + (c.toNat - 48)) else none

/-- A non-empty all-digit string, as a number. -/
def readDigits : List Char → Option Nat
  | [] => none
  | l => readDigitsAux l 0

/-- Python's builtin `int(s)` on a string: an optional sign followed by at
least one decimal digit parses to that integer, anything else raises
`ValueError`.  (Surrounding whitespace and underscore separators, which
Python also accepts, are omitted: no call site passes them.) -/
def pyInt (s : String) : Except PyError ℤ :=
  match s.data with
  | '-' :: rest =>
    match readDigits rest with
    | some n => .ok (-(n : ℤ))
    | none => .error .valueError
  | '+' :: rest =>
    match readDigits rest with
    | some n => .ok (n : ℤ)
    | none => .error .valueError
  | ds =>
    match readDigits ds with
    | some n => .ok (n : ℤ)
    | none => .error .valueError

/-- Python's builtin `max` over a non-empty list, as an `Option`. -/
def pyMax : List ℤ → Option ℤ
  | [] => none
  | x :: xs => some (xs.foldl max x)

/-- Python's builtin `min` over a non-empty list, as an `Option`. -/
def pyMin : List ℤ → Option ℤ
  | [] => none
  | x :: xs => some (xs.foldl min x)

/-- The dictionary returned by `process_list`: keys "sum", "average",
"max", "min".  The "max"/"min" values are `None` on empty input, hence
`Option`; "average" is a float in Python, modelled exactly as a rational. -/
structure Stats where
  sum : ℤ
  average : ℚ
  max : Option ℤ
  min : Option ℤ
deriving DecidableEq, Repr

/-- `process_list(items)` from the source: on empty input the sentinel
dictionary, otherwise sum, average (= sum / len), max and min.  The division
is the only fallible step and is transcribed through `pyDiv`. -/
def process_list (items : List ℤ) : Except PyError Stats :=
  if items.isEmpty then
    .ok { sum := 0, average := 0, max := none, min := none }
  else
    match pyDiv items.sum (items.length : ℤ) with
    | .error e => .error e
    | .ok avg =>
        .ok { sum := items.sum, average := avg,
              max := pyMax items, min := pyMin items }

/-- Round to the nearest integer, ties to even (the IEEE-754 default
rounding used for Python floats). -/
def roundHalfEven (q : ℚ) : ℤ :=
  if q - ⌊q⌋ < 1 / 2 then ⌊q⌋
  else if 1 / 2 < q - ⌊q⌋ then ⌊q⌋ + 1
  else if ⌊q⌋ % 2 = 0 then ⌊q⌋ else ⌊q⌋ + 1

/-- Modelled from IEEE-754 binary64 (the representation of a Python float):
round a rational to 53 significant bits, nearest-even.  Exponent overflow
and subnormals are omitted: no input considered here reaches them. -/
def roundDouble (q : ℚ) : ℚ :=
  if q = 0 then 0
  else
    (if q < 0 then -(roundHalfEven (|q| / 2 ^ (Int.log 2 |q| - 52)) : ℚ)
     else (roundHalfEven (|q| / 2 ^ (Int.log 2 |q| - 52)) : ℚ))
      * 2 ^ (Int.log 2 |q| - 52)

/-- Python's `/` on integers with the float result modelled at IEEE
precision: the rounded refinement of `pyDiv` (which idealizes the quotient
as exact). -/
def pyFloatDiv (a b : ℤ) : Except PyError ℚ :=
  if b = 0 then .error .zeroDivision
  else .ok (roundDouble ((a : ℚ) / (b : ℚ)))

/-- `process_list` with the stored "average" given Python-float (binary64)
semantics rather than exact rational division: same transcription of the
source, with `pyFloatDiv` in place of `pyDiv`. -/
def process_list_float (items : List ℤ) : Except PyError Stats :=
  if items.isEmpty then
    .ok { sum := 0, average := 0, max := none, min := none }
  else
    match pyFloatDiv items.sum (items.length : ℤ) with
    | .error e => .error e
    | .ok avg =>
        .ok { sum := items.sum, average := avg,
              max := pyMax items, min := pyMin items }

/-- `demonstrate_conditionals(value)` from the source: sign via
if/elif/else, parity via `value % 2 == 0`, composed into the result string.
(Lean's `%` on `ℤ` agrees with Python's on the divisor 2: both give
remainder 0 exactly on even numbers, negatives included.) -/
def demonstrate_conditionals (value : ℤ) : String :=
  let result :=
    if value > 0 then "positive"
    else if value < 0 then "negative"
    else "zero"
  let parity := if value % 2 = 0 then "even" else "odd"
  toString value ++ " is " ++ result ++ " and " ++ parity

/-- The `Person` class: two fields set in `__init__`, never mutated. -/
structure Person where
  name : String
  age : ℤ
deriving DecidableEq, Repr

/-- `Person.greet` from the source: the fixed-format sentence built from the
two fields. -/
def Person.greet (p : Person) : String :=
  "Hello, my name is " ++ p.name ++ " and I\x27m " ++ toString p.age
    ++ " years old."

/-- `Person.is_adult` from the source: `self.age >= 18`. -/
def Person.is_adult (p : Person) : Bool :=
  decide (p.age ≥ 18)

/-- The two methods a `Person` object exposes. -/
inductive Method where
  | greet
  | isAdult
deriving DecidableEq, Repr

/-- A value returned by a method call. -/
inductive MValue where
  | str (s : String)
  | bool (b : Bool)
deriving DecidableEq, Repr

/-- One method invocation on a `Person` object: the returned value together
with the object's state afterwards.  Both method bodies only read
`self.name` / `self.age` and assign nothing, so the post-state is the
transcription of that: the receiver unchanged. -/
def Person.call (p : Person) : Method → MValue × Person
  | .greet => (.str p.greet, p)
  | .isAdult => (.bool p.is_adult, p)

/-- A sequence of method invocations on a `Person` object, threading the
object state through. -/
def runCalls (p : Person) : List Method → List MValue × Person
  | [] => ([], p)
  | m :: ms =>
    let r := p.call m
    let rest := runCalls r.2 ms
    (r.1 :: rest.1, rest.2)

/-- A console event emitted by `demonstrate_error_handling`.  Each
constructor corresponds to one `print` in the source. -/
inductive Event where
  | divisionResult (r : ℚ)
  | divisionError
  | unexpectedError
  | finallyBlock
  | invalidNumber
  | parsedOk (v : ℤ)
deriving DecidableEq, Repr

/-- Whether an event is one of the error reports. -/
def Event.isError : Event → Bool
  | divisionError => true
  | unexpectedError => true
  | invalidNumber => true
  | _ => false

/-- The body of `demonstrate_error_handling`, with the literal operands of
the two fallible expressions (`10 / 2` and `int("123")` in the source) as
parameters so that the catch structure can be stated for any operands.
First block: try the division, `except ZeroDivisionError` reports it,
`except Exception` reports anything else, `finally` always runs.  Second
block: try the parse, `except ValueError` reports it (any other exception
would propagate), `else` reports the parsed value. -/
def errorHandlingBlocks (num den : ℤ) (src : String) :
    Except PyError (List Event) :=
  let first : List Event :=
    match pyDiv num den with
    | .ok r => [.divisionResult r]
    | .error .zeroDivision => [.divisionError]
    | .error _ => [.unexpectedError]
  let first := first ++ [.finallyBlock]
  match pyInt src with
  | .ok v => .ok (first ++ [.parsedOk v])
  | .error .valueError => .ok (first ++ [.invalidNumber])
  | .error e => .error e

/-- `demonstrate_error_handling` from the source: the two try/except blocks
with the literal operands `10 / 2` and `int("123")`. -/
def demonstrate_error_handling : Except PyError (List Event) :=
  errorHandlingBlocks 10 2 "123"

/-- A filesystem state: each file name maps to its contents, when the file
exists. -/
def FS : Type := String → Option String

/-- `open(name, 'w')` followed by writes totalling `content`. -/
def fsWrite (fs : FS) (name content : String) : FS :=
  fun n => if n = name then some content else fs n

/-- `open(name, 'r').read()`, as an `Option` (the routine only reads a file
it has just written). -/
def fsRead (fs : FS) (name : String) : Option String :=
  fs name

/-- `os.path.exists(name)`. -/
def fsExists (fs : FS) (name : String) : Bool :=
  (fs name).isSome

/-- `os.remove(name)`. -/
def fsRemove (fs : FS) (name : String) : FS :=
  fun n => if n = name then none else fs n

/-- Splitting a string into the lines Python's file iteration yields: each
line keeps its trailing newline; a final fragment without a newline is one
last line. -/
def splitLinesAux : List Char → List Char → List String
  | [], acc => if acc.isEmpty then [] else [String.mk acc.reverse]
  | c :: cs, acc =>
    if c = '\n' then
      String.mk (acc.reverse ++ [c]) :: splitLinesAux cs []
    else
      splitLinesAux cs (c :: acc)

/-- Line iteration over a file's contents, newlines kept. -/
def splitKeepNL (s : String) : List String :=
  splitLinesAux s.data []

/-- What `demonstrate_file_operations` leaves behind: the final filesystem,
the contents `f.read()` returned, the lines the second read iterated over,
and whether the cleanup branch removed the file. -/
structure FileOpsResult where
  fs : FS
  content : Option String
  lines : List String
  removed : Bool

/-- `demonstrate_file_operations` from the source, over an arbitrary
starting filesystem: write the two fixed lines to `temp_example.txt`
(the two `f.write` calls of one `'w'`-mode open concatenate), read the
whole file back, read it again line by line, then remove it if it exists. -/
def demonstrate_file_operations (fs : FS) : FileOpsResult :=
  let filename := "temp_example.txt"
  let fs1 := fsWrite fs filename ("Hello, World!\n" ++ "This is a test file.\n")
  let content := fsRead fs1 filename
  let lines :=
    match fsRead fs1 filename with
    | some c => splitKeepNL c
    | none => []
  if fsExists fs1 filename then
    { fs := fsRemove fs1 filename, content := content, lines := lines,
      removed := true }
  else
    { fs := fs1, content := content, lines := lines, removed := false }

/-! ### Helper lemmas -/

theorem le_foldl_max : ∀ (xs : List ℤ) (x a : ℤ), a ≤ x → a ≤ xs.foldl max x
  | [], _, _, h => h
  | y :: ys, x, a, h => le_foldl_max ys (max x y) a (le_trans h (le_max_left x y))

theorem mem_le_foldl_max : ∀ (xs : List ℤ) (x a : ℤ), a ∈ xs → a ≤ xs.foldl max x
  | [], _, a, h => absurd h (List.not_mem_nil a)
  | y :: ys, x, a, h => by
    rcases List.mem_cons.mp h with h1 | h2
    · subst h1
      exact le_foldl_max ys (max x a) a (le_max_right x a)
    · exact mem_le_foldl_max ys (max x y) a h2

theorem foldl_max_mem : ∀ (xs : List ℤ) (x : ℤ), xs.foldl max x = x ∨ xs.foldl max x ∈ xs
  | [], _ => Or.inl rfl
  | y :: ys, x => by
    rcases foldl_max_mem ys (max x y) with h | h
    · rcases max_choice x y with h2 | h2
      · exact Or.inl (by simpa [h2] using h)
      · refine Or.inr ?_
        rw [List.foldl_cons, h, h2]
        exact List.mem_cons_self y ys
    · exact Or.inr (List.mem_cons_of_mem y h)

theorem foldl_min_le : ∀ (xs : List ℤ) (x a : ℤ), x ≤ a → xs.foldl min x ≤ a
  | [], _, _, h => h
  | y :: ys, x, a, h => foldl_min_le ys (min x y) a (le_trans (min_le_left x y) h)

theorem foldl_min_le_mem : ∀ (xs : List ℤ) (x a : ℤ), a ∈ xs → xs.foldl min x ≤ a
  | [], _, a, h => absurd h (List.not_mem_nil a)
  | y :: ys, x, a, h => by
    rcases List.mem_cons.mp h with h1 | h2
    · subst h1
      exact foldl_min_le ys (min x a) a (min_le_right x a)
    · exact foldl_min_le_mem ys (min x y) a h2

theorem foldl_min_mem : ∀ (xs : List ℤ) (x : ℤ), xs.foldl min x = x ∨ xs.foldl min x ∈ xs
  | [], _ => Or.inl rfl
  | y :: ys, x => by
    rcases foldl_min_mem ys (min x y) with h | h
    · rcases min_choice x y with h2 | h2
      · exact Or.inl (by simpa [h2] using h)
      · refine Or.inr ?_
        rw [List.foldl_cons, h, h2]
        exact List.mem_cons_self y ys
    · exact Or.inr (List.mem_cons_of_mem y h)

theorem pyMax_spec (x : ℤ) (xs : List ℤ) :
    ∃ M, pyMax (x :: xs) = some M ∧ M ∈ x :: xs ∧ ∀ y ∈ x :: xs, y ≤ M := by
  refine ⟨xs.foldl max x, rfl, ?_, ?_⟩
  · rcases foldl_max_mem xs x with h | h
    · rw [h]
      exact List.mem_cons_self x xs
    · exact List.mem_cons_of_mem x h
  · intro y hy
    rcases List.mem_cons.mp hy with h | h
    · subst h
      exact le_foldl_max xs y y le_rfl
    · exact mem_le_foldl_max xs x y h

theorem pyMin_spec (x : ℤ) (xs : List ℤ) :
    ∃ m, pyMin (x :: xs) = some m ∧ m ∈ x :: xs ∧ ∀ y ∈ x :: xs, m ≤ y := by
  refine ⟨xs.foldl min x, rfl, ?_, ?_⟩
  · rcases foldl_min_mem xs x with h | h
    · rw [h]
      exact List.mem_cons_self x xs
    · exact List.mem_cons_of_mem x h
  · intro y hy
    rcases List.mem_cons.mp hy with h | h
    · subst h
      exact foldl_min_le xs y y le_rfl
    · exact foldl_min_le_mem xs x y h

theorem process_list_cons (x : ℤ) (xs : List ℤ) :
    process_list (x :: xs) =
      .ok { sum := (x :: xs).sum,
            average := ((x :: xs).sum : ℚ) / ((((x :: xs).length : ℤ)) : ℚ),
            max := pyMax (x :: xs), min := pyMin (x :: xs) } := by
  have hne : ¬((x :: xs).isEmpty = true) := by simp
  have hlen : ((x :: xs).length : ℤ) ≠ 0 := by
    simp only [List.length_cons]
    push_cast
    omega
  unfold process_list pyDiv
  rw [if_neg hne, if_neg hlen]

theorem pyDiv_fifteen_five : pyDiv 15 5 = .ok 3 := by
  unfold pyDiv
  norm_num

/-! ### Claim theorems -/

/-- C1: for every non-empty list of integers, `process_list` succeeds and
returns a mapping whose "sum" field is the sum of the elements, whose
"average" field is that sum divided by the length, whose "max" field is the
greatest element and whose "min" field is the least element; in particular
on `[1,2,3,4,5]` it returns sum 15, average 3.0, max 5 and min 1. -/
theorem process_list_nonempty_correct :
    (∀ (x : ℤ) (xs : List ℤ), ∃ M m : ℤ,
      process_list (x :: xs) =
        .ok { sum := (x :: xs).sum,
              average := ((x :: xs).sum : ℚ) / ((x :: xs).length : ℚ),
              max := some M, min := some m } ∧
      M ∈ x :: xs ∧ (∀ y ∈ x :: xs, y ≤ M) ∧
      m ∈ x :: xs ∧ (∀ y ∈ x :: xs, m ≤ y)) ∧
    process_list [1, 2, 3, 4, 5] =
      .ok { sum := 15, average := 3, max := some 5, min := some 1 } := by
  constructor
  · intro x xs
    obtain ⟨M, hM, hMmem, hMub⟩ := pyMax_spec x xs
    obtain ⟨m, hm, hmmem, hmlb⟩ := pyMin_spec x xs
    refine ⟨M, m, ?_, hMmem, hMub, hmmem, hmlb⟩
    rw [process_list_cons, hM, hm]
    norm_cast
  · simp [process_list, pyMax, pyMin, pyDiv_fifteen_five]

/-- C2: on the empty list `process_list` does not fail and returns exactly
the sentinel mapping sum = 0, average = 0, max = None, min = None. -/
theorem process_list_empty_sentinel :
    process_list [] = .ok { sum := 0, average := 0, max := none, min := none } :=
  rfl

/-- C6: `process_list` never raises a division-by-zero error on any input
list: it always returns a result, the divisor being positive whenever the
division runs. -/
theorem process_list_no_zero_division :
    ∀ items : List ℤ, ∃ st : Stats, process_list items = .ok st := by
  intro items
  cases items with
  | nil => exact ⟨_, rfl⟩
  | cons x xs => exact ⟨_, process_list_cons x xs⟩

/-- C3: `demonstrate_conditionals` is total over ℤ and returns
"{v} is {sign} and {parity}" where sign is positive/negative/zero by the
sign of `v` and parity is "even" exactly when 2 divides `v` (negatives
included); in particular 10, -5 and 0 give the three listed strings. -/
theorem demonstrate_conditionals_correct :
    (∀ v : ℤ, demonstrate_conditionals v =
      toString v ++ " is " ++
        (if v > 0 then "positive" else if v < 0 then "negative" else "zero") ++
        " and " ++ (if 2 ∣ v then "even" else "odd")) ∧
    demonstrate_conditionals 10 = "10 is positive and even" ∧
    demonstrate_conditionals (-5) = "-5 is negative and odd" ∧
    demonstrate_conditionals 0 = "0 is zero and even" := by
  refine ⟨?_, rfl, rfl, rfl⟩
  intro v
  by_cases h2 : (2 : ℤ) ∣ v
  · have hm : v % 2 = 0 := by omega
    simp [demonstrate_conditionals, hm, h2]
  · have hm : ¬(v % 2 = 0) := by omega
    simp [demonstrate_conditionals, hm, h2]

/-- C7: `is_adult` returns true exactly when the age is at least 18; in
particular Alice at 25 is an adult and a person aged 10 is not. -/
theorem is_adult_iff_age_ge_18 :
    (∀ p : Person, p.is_adult = true ↔ 18 ≤ p.age) ∧
    (Person.mk "Alice" 25).is_adult = true ∧
    (Person.mk "Bob" 10).is_adult = false := by
  refine ⟨?_, rfl, rfl⟩
  intro p
  unfold Person.is_adult
  exact decide_eq_true_iff

/-- C8: any sequence of `greet` / `is_adult` calls, in any order and number,
leaves the `Person` state (hence its name and age fields) unchanged, and
`greet` always returns the fixed-format sentence composed from the
constructor arguments. -/
theorem person_methods_pure :
    (∀ (p : Person) (ms : List Method), (runCalls p ms).2 = p) ∧
    (∀ (p : Person) (ms : List Method),
      (runCalls p ms).2.name = p.name ∧ (runCalls p ms).2.age = p.age) ∧
    (∀ p : Person, p.call .greet =
      (.str ("Hello, my name is " ++ p.name ++ " and I\x27m "
        ++ toString p.age ++ " years old."), p) ∧
      p.call .isAdult = (.bool p.is_adult, p)) := by
  have hstate : ∀ (ms : List Method) (p : Person), (runCalls p ms).2 = p := by
    intro ms
    induction ms with
    | nil => intro p; rfl
    | cons m ms ih =>
      intro p
      cases m
      · exact ih p
      · exact ih p
  refine ⟨fun p ms => hstate ms p, fun p ms => ?_, fun p => ⟨rfl, rfl⟩⟩
  rw [hstate ms p]
  exact ⟨rfl, rfl⟩

/-- C4: for any starting filesystem, the file-operations routine reads back
exactly the content it wrote — both as one block and line by line (the
lines concatenate to the written content) — and `temp_example.txt` does not
exist once the routine completes (the cleanup branch ran). -/
theorem file_roundtrip_correct :
    ∀ fs : FS,
      (demonstrate_file_operations fs).content =
        some ("Hello, World!\n" ++ "This is a test file.\n") ∧
      (demonstrate_file_operations fs).lines =
        ["Hello, World!\n", "This is a test file.\n"] ∧
      String.join (demonstrate_file_operations fs).lines =
        "Hello, World!\n" ++ "This is a test file.\n" ∧
      (demonstrate_file_operations fs).removed = true ∧
      fsExists (demonstrate_file_operations fs).fs "temp_example.txt" = false :=
  fun _ => ⟨rfl, rfl, rfl, rfl, rfl⟩

theorem pyInt_cases (s : String) :
    (∃ v, pyInt s = .ok v) ∨ pyInt s = .error .valueError := by
  unfold pyInt
  split
  all_goals split
  all_goals simp

theorem pyDiv_cases (num den : ℤ) :
    (∃ r, pyDiv num den = .ok r) ∨ pyDiv num den = .error .zeroDivision := by
  unfold pyDiv
  split
  · exact Or.inr rfl
  · exact Or.inl ⟨_, rfl⟩

/-- C5: in the error-handling routine the only error reports that can occur
are the division-by-zero one and the invalid-parse one, both handled where
they arise: for any operands of the two fallible expressions the routine
returns normally (no exception propagates, so the caller — and the program —
completes successfully), the finally-block always runs, and every error
event in the trace is one of those two; the source routine is this body at
the literals 10, 2 and "123". -/
theorem error_handling_caught_locally :
    (∀ (num den : ℤ) (src : String), ∃ evs : List Event,
      errorHandlingBlocks num den src = .ok evs ∧
      Event.finallyBlock ∈ evs ∧
      ∀ e ∈ evs, e.isError = true →
        e = Event.divisionError ∨ e = Event.invalidNumber) ∧
    demonstrate_error_handling = errorHandlingBlocks 10 2 "123" := by
  refine ⟨?_, rfl⟩
  intro num den src
  rcases pyDiv_cases num den with ⟨r, hdiv⟩ | hdiv <;>
    rcases pyInt_cases src with ⟨v, hint⟩ | hint <;>
      refine ⟨_, by rw [errorHandlingBlocks, hdiv, hint], ?_, ?_⟩ <;>
        simp [Event.isError]

theorem roundDouble_big : roundDouble ((2 : ℚ) ^ 60 - 1) = 2 ^ 60 := by
  have hq0 : ¬((2 : ℚ) ^ 60 - 1 = 0) := by norm_num
  have hneg : ¬((2 : ℚ) ^ 60 - 1 < 0) := by norm_num
  have habs : |(2 : ℚ) ^ 60 - 1| = (2 : ℚ) ^ 60 - 1 := by
    rw [abs_of_nonneg]
    norm_num
  have hcast : ((2 : ℚ) ^ 60 - 1) = ((2 ^ 60 - 1 : ℕ) : ℚ) := by
    norm_num
  have hlog : Int.log 2 ((2 : ℚ) ^ 60 - 1) = 59 := by
    have hnat : Nat.log 2 (2 ^ 60 - 1) = 59 := by
      apply Nat.log_eq_of_pow_le_of_lt_pow <;> norm_num
    rw [hcast, Int.log_natCast, hnat]
    norm_num
  unfold roundDouble
  rw [if_neg hq0, if_neg hneg, habs, hlog]
  have h7 : (59 : ℤ) - 52 = 7 := by norm_num
  rw [h7]
  have hpow : (2 : ℚ) ^ (7 : ℤ) = 128 := by norm_num
  rw [hpow]
  have hfloor : ⌊((2 : ℚ) ^ 60 - 1) / 128⌋ = 2 ^ 53 - 1 := by
    rw [Int.floor_eq_iff]
    constructor
    · rw [le_div_iff₀ (by norm_num : (0 : ℚ) < 128)]
      push_cast
      norm_num
    · rw [div_lt_iff₀ (by norm_num : (0 : ℚ) < 128)]
      push_cast
      norm_num
  have hrhe : roundHalfEven (((2 : ℚ) ^ 60 - 1) / 128) = 2 ^ 53 := by
    unfold roundHalfEven
    rw [hfloor]
    rw [if_neg (by push_cast; norm_num), if_pos (by push_cast; norm_num)]
    norm_num
  rw [hrhe]
  push_cast
  norm_num

/-- C9 counterexample: under the program's float semantics the claimed
invariants fail at the input `[2^60 - 1]`: the stored average rounds up to
`2^60`, which is strictly greater than the "max" field `2^60 - 1`, and
consequently average × length differs from the sum. -/
theorem process_list_stats_invariant_counterexample :
    process_list_float [2 ^ 60 - 1] =
      .ok { sum := 2 ^ 60 - 1, average := 2 ^ 60,
            max := some (2 ^ 60 - 1), min := some (2 ^ 60 - 1) } ∧
    ¬((2 ^ 60 : ℚ) ≤ ((2 ^ 60 - 1 : ℤ) : ℚ)) ∧
    ¬(((2 ^ 60 - 1 : ℤ) : ℚ) =
        (2 ^ 60 : ℚ) * (([2 ^ 60 - 1] : List ℤ).length : ℚ)) := by
  refine ⟨?_, by push_cast; norm_num, by push_cast; norm_num⟩
  have hdiv : pyFloatDiv (2 ^ 60 - 1 : ℤ) 1 = .ok (2 ^ 60) := by
    unfold pyFloatDiv
    rw [if_neg (by norm_num)]
    have harg : (((2 ^ 60 - 1 : ℤ)) : ℚ) / ((1 : ℤ) : ℚ) = (2 : ℚ) ^ 60 - 1 := by
      push_cast
      norm_num
    rw [harg, roundDouble_big]
  have hsum : ([2 ^ 60 - 1] : List ℤ).sum = 2 ^ 60 - 1 := by simp
  have hlen : ((([2 ^ 60 - 1] : List ℤ).length : ℕ) : ℤ) = 1 := by simp
  unfold process_list_float
  rw [if_neg (by simp), hsum, hlen, hdiv]
  rfl

/-- C9 (amended): for every non-empty list, with the average taken as the
exact rational sum / length — the value the program's float division rounds
to nearest binary64, equal to the stored float whenever that quotient is
exactly representable — the statistics satisfy min ≤ average ≤ max (hence
min ≤ max), and the sum equals the average multiplied by the length.  For
the float actually stored the identities can fail (see the
counterexample). -/
theorem process_list_stats_invariant :
    ∀ (x : ℤ) (xs : List ℤ), ∃ (st : Stats) (M m : ℤ),
      process_list (x :: xs) = .ok st ∧
      st.max = some M ∧ st.min = some m ∧
      (m : ℚ) ≤ st.average ∧ st.average ≤ (M : ℚ) ∧ m ≤ M ∧
      (st.sum : ℚ) = st.average * ((x :: xs).length : ℚ) := by
  intro x xs
  obtain ⟨M, hM, hMmem, hMub⟩ := pyMax_spec x xs
  obtain ⟨m, hm, hmmem, hmlb⟩ := pyMin_spec x xs
  have hlen : (0 : ℚ) < ((x :: xs).length : ℚ) := by
    simp only [List.length_cons]
    push_cast
    positivity
  have hlb : ((x :: xs).length : ℤ) * m ≤ (x :: xs).sum := by
    simpa [nsmul_eq_mul] using List.card_nsmul_le_sum (x :: xs) m hmlb
  have hub : (x :: xs).sum ≤ ((x :: xs).length : ℤ) * M := by
    simpa [nsmul_eq_mul] using List.sum_le_card_nsmul (x :: xs) M hMub
  refine ⟨_, M, m, process_list_cons x xs, by rw [hM], by rw [hm], ?_, ?_, hmlb M hMmem, ?_⟩
  · show (m : ℚ) ≤ ((x :: xs).sum : ℚ) / (((x :: xs).length : ℤ) : ℚ)
    rw [le_div_iff₀ (by exact_mod_cast hlen)]
    rw [mul_comm]
    exact_mod_cast hlb
  · show ((x :: xs).sum : ℚ) / (((x :: xs).length : ℤ) : ℚ) ≤ (M : ℚ)
    rw [div_le_iff₀ (by exact_mod_cast hlen)]
    rw [mul_comm]
    exact_mod_cast hub
  · show ((x :: xs).sum : ℚ) =
      ((x :: xs).sum : ℚ) / (((x :: xs).length : ℤ) : ℚ) * ((x :: xs).length : ℚ)
    rw [Int.cast_natCast, div_mul_cancel₀]
    exact ne_of_gt hlen

/-- C10: both except-branches of `demonstrate_error_handling` are
unreachable: 10 / 2 and int("123") succeed, so the routine's trace is
exactly the division result, the finally-block line and the
successful-parse message, with no error event at all. -/
theorem error_handling_branches_unreachable :
    demonstrate_error_handling =
      .ok [Event.divisionResult 5, Event.finallyBlock, Event.parsedOk 123] ∧
    ∀ evs, demonstrate_error_handling = .ok evs →
      ∀ e ∈ evs, e.isError = false := by
  have hdiv : pyDiv 10 2 = .ok 5 := by
    unfold pyDiv
    norm_num
  have hint : pyInt "123" = .ok 123 := rfl
  have htrace : demonstrate_error_handling =
      .ok [Event.divisionResult 5, Event.finallyBlock, Event.parsedOk 123] := by
    rw [demonstrate_error_handling, errorHandlingBlocks, hdiv, hint]
    rfl
  refine ⟨htrace, ?_⟩
  intro evs hevs
  rw [htrace] at hevs
  cases hevs
  simp [Event.isError]
